import Mathlib

/-!
Verification of the tide tool (`tools/tide_tool/main.py`): the synthetic
semidiurnal sine-wave tide model, the local extremum scan, and the
fetch-with-fallback orchestration of `get_tide_sea_level` and
`get_tide_extremes`.

Modelling conventions:
* A `datetime` (timezone-aware UTC) is modelled as a real number of seconds
  since the Unix epoch; `timedelta(hours=h)` adds `3600 * h` seconds, and
  `(t - epoch).total_seconds()` is the number `t` itself.  ISO-8601
  formatting is injective on these instants, so a timestamp string is
  identified with its instant.
* `math.sin` / `math.pi` are modelled exactly over `ℝ` (`Real.sin`,
  `Real.pi`).
* The outbound HTTP call is modelled by passing the provider's response as
  an explicit argument: either a decoded `data` payload or an HTTP error
  status (the `requests.HTTPError` raised by `raise_for_status`).
* Python exceptions become `Except TideError`: the `assert` precondition
  failure is `TideError.invalidArgument` with the assertion's message, and
  an uncaught `requests.HTTPError` is `TideError.remoteServiceError` with
  its status code.
-/

namespace TideTool

/-- Error outcomes of the tide operations: `invalidArgument` is the
`AssertionError` of the precondition check, `remoteServiceError` an
uncaught HTTP error with its status code. -/
inductive TideError : Type where
  | invalidArgument : String → TideError
  | remoteServiceError : Nat → TideError
deriving DecidableEq

/-- Outcome of the outbound provider request (`_request`): decoded `data`
payload on 2xx, or the HTTP status code of the `HTTPError` raised by
`raise_for_status`. -/
inductive ProviderResult (α : Type) : Type where
  | ok : α → ProviderResult α
  | httpError : Nat → ProviderResult α
deriving DecidableEq

/-- One row of the provider's sea-level `data` array: a timestamp and the
composite-source (`sg`) sea level. -/
structure SeaLevelRow : Type where
  time : ℝ
  sg : ℝ

/-- The result dictionary of `get_tide_sea_level`: parallel `time` and
`sea_level` arrays. -/
structure SeaLevelDict : Type where
  time : List ℝ
  sea_level : List ℝ

/-- One extreme event dictionary: keys `time`, `height`, `type`.  Generic
in the timestamp and height types so the extremum scan can be stated for
any linearly ordered heights. -/
structure Extreme (τ : Type) (α : Type) : Type where
  time : τ
  height : α
  type : String

/-- The string tag of a high-tide event. -/
def highTag : String := "high"

/-- The string tag of a low-tide event. -/
def lowTag : String := "low"

/-- Message of the `hours` precondition assertion in `get_tide_sea_level`. -/
def hoursMsg : String := "hours must be between 1 and 240"

/-- Message of the `days` precondition assertion in `get_tide_extremes`. -/
def daysMsg : String := "days must be 1–10"

/-- The semidiurnal period used by `_sine_wave_tide`:
`period = 12.42 * 3600` seconds (12.42 hours). -/
def period : ℝ := 12.42 * 3600

/-- `_sine_wave_tide(hours, start_dt)`: `hours` hourly samples starting at
`start_dt`; sample `h` is taken at `start_dt + 3600 * h` seconds and its
level is `sin(2 * pi * (seconds / period))` where `seconds` is the time
since the Unix epoch at that sample. -/
noncomputable def _sine_wave_tide (hours : ℤ) (start_dt : ℝ) : SeaLevelDict where
  time := (List.range hours.toNat).map (fun (h : ℕ) => start_dt + 3600 * (h : ℝ))
  sea_level := (List.range hours.toNat).map (fun (h : ℕ) =>
    Real.sin (2 * Real.pi * ((start_dt + 3600 * (h : ℝ)) / period)))

/-- `get_tide_sea_level(lat, lon, hours)` with the provider's response made
explicit.  Checks `assert 1 <= hours <= 240`; on a 2xx response projects
the `time` and `sg` columns of `data` and truncates both with `[:hours]`;
on HTTP 402 falls back to `_sine_wave_tide(hours, now)`; any other
`HTTPError` is re-raised. -/
noncomputable def get_tide_sea_level (lat lon : ℝ) (hours : ℤ) (now : ℝ)
    (resp : ProviderResult (List SeaLevelRow)) : Except TideError SeaLevelDict :=
  if 1 ≤ hours ∧ hours ≤ 240 then
    match resp with
    | .ok data =>
        .ok { time := ((data.map (fun row => row.time)).take hours.toNat)
              sea_level := ((data.map (fun row => row.sg)).take hours.toNat) }
    | .httpError status =>
        if status = 402 then .ok (_sine_wave_tide hours now)
        else .error (.remoteServiceError status)
  else .error (.invalidArgument hoursMsg)

/-- The scan loop of `_find_synthetic_extremes`, over arbitrary parallel
`times` / `levels` arrays: `for i in range(1, len(levels) - 1)`, append a
`"high"` event when `levels[i] >= levels[i-1] and levels[i] >= levels[i+1]`,
else a `"low"` event when `levels[i] <= levels[i-1] and levels[i] <= levels[i+1]`. -/
def extremesScan {τ α : Type} [LinearOrder α] (times : List τ) (levels : List α) :
    List (Extreme τ α) :=
  (List.range' 1 (levels.length - 2)).foldl (fun extremes i =>
    match times[i]?, levels[i - 1]?, levels[i]?, levels[i + 1]? with
    | some t, some prev, some cur, some next =>
        if cur ≥ prev ∧ cur ≥ next then extremes ++ [⟨t, cur, highTag⟩]
        else if cur ≤ prev ∧ cur ≤ next then extremes ++ [⟨t, cur, lowTag⟩]
        else extremes
    | _, _, _, _ => extremes) []

/-- `_find_synthetic_extremes(days, start_dt)`: sample the synthetic wave
over `days * 24 + 1` hours and scan for local maxima / minima. -/
noncomputable def _find_synthetic_extremes (days : ℤ) (start_dt : ℝ) :
    List (Extreme ℝ ℝ) :=
  let hours := days * 24
  let tide := _sine_wave_tide (hours + 1) start_dt
  extremesScan tide.time tide.sea_level

/-- `get_tide_extremes(lat, lon, days)` with the provider's response made
explicit.  Checks `assert 1 <= days <= 10`; on a 2xx response returns the
provider's `data` rows unmodified; on HTTP 402 falls back to
`_find_synthetic_extremes(days, now)`; any other `HTTPError` is re-raised. -/
noncomputable def get_tide_extremes (lat lon : ℝ) (days : ℤ) (now : ℝ)
    (resp : ProviderResult (List (Extreme ℝ ℝ))) : Except TideError (List (Extreme ℝ ℝ)) :=
  if 1 ≤ days ∧ days ≤ 10 then
    match resp with
    | .ok data => .ok data
    | .httpError status =>
        if status = 402 then .ok (_find_synthetic_extremes days now)
        else .error (.remoteServiceError status)
  else .error (.invalidArgument daysMsg)

/-- The extremum detection as the spec words it: scan interior indices
`i = 1 .. N-2` of the `days*24 + 1`-sample synthetic wave and emit
`{time[i], value[i], "high"}` when `value[i]` is ≥ both neighbours, else
`{time[i], value[i], "low"}` when it is ≤ both, in scan order. -/
noncomputable def spec_find_synthetic_extremes (days : ℤ) (start_dt : ℝ) :
    List (Extreme ℝ ℝ) :=
  let w := _sine_wave_tide (days * 24 + 1) start_dt
  (List.range' 1 (w.sea_level.length - 2)).filterMap (fun i =>
    match w.time[i]?, w.sea_level[i - 1]?, w.sea_level[i]?, w.sea_level[i + 1]? with
    | some t, some prev, some cur, some next =>
        if cur ≥ prev ∧ cur ≥ next then some ⟨t, cur, highTag⟩
        else if cur ≤ prev ∧ cur ≤ next then some ⟨t, cur, lowTag⟩
        else none
    | _, _, _, _ => none)

/-- C1: a provider failure with HTTP status 402 is never surfaced: within the
precondition bounds, `get_tide_sea_level` returns the synthetic sea-level
series `_sine_wave_tide hours now` as a normal successful result, and
`get_tide_extremes` returns `_find_synthetic_extremes days now`. -/
theorem quota_402_recovered_locally (lat lon now : ℝ) (hours days : ℤ) :
    (1 ≤ hours → hours ≤ 240 →
      get_tide_sea_level lat lon hours now (.httpError 402) =
        .ok (_sine_wave_tide hours now)) ∧
    (1 ≤ days → days ≤ 10 →
      get_tide_extremes lat lon days now (.httpError 402) =
        .ok (_find_synthetic_extremes days now)) := by
  constructor
  · intro h1 h2
    simp [get_tide_sea_level, h1, h2]
  · intro h1 h2
    simp [get_tide_extremes, h1, h2]

/-- Witness for C1 at `hours = 48`, `days = 3` (the source defaults),
`lat = lon = 0`, `now = 0`. -/
theorem quota_402_recovered_locally_witness :
    ((1 : ℤ) ≤ 48 ∧ (48 : ℤ) ≤ 240 ∧
      get_tide_sea_level 0 0 48 0 (.httpError 402) = .ok (_sine_wave_tide 48 0)) ∧
    ((1 : ℤ) ≤ 3 ∧ (3 : ℤ) ≤ 10 ∧
      get_tide_extremes 0 0 3 0 (.httpError 402) = .ok (_find_synthetic_extremes 3 0)) :=
  ⟨⟨by decide, by decide,
      (quota_402_recovered_locally 0 0 0 48 3).1 (by decide) (by decide)⟩,
    ⟨by decide, by decide,
      (quota_402_recovered_locally 0 0 0 48 3).2 (by decide) (by decide)⟩⟩

/-- C2: any provider failure with an HTTP status other than 402 (within the
precondition bounds) is propagated unchanged as `remoteServiceError status`,
and no data is returned. -/
theorem non_402_error_propagated (lat lon now : ℝ) (hours days : ℤ) (status : Nat) :
    (1 ≤ hours → hours ≤ 240 → status ≠ 402 →
      get_tide_sea_level lat lon hours now (.httpError status) =
        .error (.remoteServiceError status)) ∧
    (1 ≤ days → days ≤ 10 → status ≠ 402 →
      get_tide_extremes lat lon days now (.httpError status) =
        .error (.remoteServiceError status)) := by
  constructor
  · intro h1 h2 hs
    simp [get_tide_sea_level, h1, h2, hs]
  · intro h1 h2 hs
    simp [get_tide_extremes, h1, h2, hs]

/-- Witness for C2 at `hours = 48`, `days = 3`, provider status 500. -/
theorem non_402_error_propagated_witness :
    ((1 : ℤ) ≤ 48 ∧ (48 : ℤ) ≤ 240 ∧ (500 : Nat) ≠ 402 ∧
      get_tide_sea_level 0 0 48 0 (.httpError 500) =
        .error (.remoteServiceError 500)) ∧
    ((1 : ℤ) ≤ 3 ∧ (3 : ℤ) ≤ 10 ∧
      get_tide_extremes 0 0 3 0 (.httpError 500) =
        .error (.remoteServiceError 500)) :=
  ⟨⟨by decide, by decide, by decide,
      (non_402_error_propagated 0 0 0 48 3 500).1 (by decide) (by decide) (by decide)⟩,
    ⟨by decide, by decide,
      (non_402_error_propagated 0 0 0 48 3 500).2 (by decide) (by decide) (by decide)⟩⟩

/-- C3: `get_tide_sea_level` fails with the `InvalidArgument` assertion
exactly when `hours` is outside `[1, 240]`, and `get_tide_extremes` exactly
when `days` is outside `[1, 10]` — in each case for every provider response
(the check precedes any network access, so the outcome is independent of
the response); the boundary values `hours = 240` and `days = 10` pass the
precondition check. -/
theorem invalid_argument_exactly_out_of_range (lat lon now : ℝ) (hours days : ℤ)
    (resp : ProviderResult (List SeaLevelRow))
    (respEx : ProviderResult (List (Extreme ℝ ℝ))) :
    (get_tide_sea_level lat lon hours now resp = .error (.invalidArgument hoursMsg) ↔
      ¬(1 ≤ hours ∧ hours ≤ 240)) ∧
    (get_tide_extremes lat lon days now respEx = .error (.invalidArgument daysMsg) ↔
      ¬(1 ≤ days ∧ days ≤ 10)) ∧
    get_tide_sea_level lat lon 240 now resp ≠ .error (.invalidArgument hoursMsg) ∧
    get_tide_extremes lat lon 10 now respEx ≠ .error (.invalidArgument daysMsg) := by
  have hsea : ∀ h : ℤ, (get_tide_sea_level lat lon h now resp =
      .error (.invalidArgument hoursMsg) ↔ ¬(1 ≤ h ∧ h ≤ 240)) := by
    intro h
    by_cases hr : 1 ≤ h ∧ h ≤ 240
    · simp only [get_tide_sea_level, if_pos hr, iff_false, not_not]
      cases resp with
      | ok data => simp [hr]
      | httpError status =>
          by_cases hs : status = 402 <;> simp [hs, hr]
    · simp [get_tide_sea_level, if_neg hr, hr]
  have hext : ∀ d : ℤ, (get_tide_extremes lat lon d now respEx =
      .error (.invalidArgument daysMsg) ↔ ¬(1 ≤ d ∧ d ≤ 10)) := by
    intro d
    by_cases hr : 1 ≤ d ∧ d ≤ 10
    · simp only [get_tide_extremes, if_pos hr, iff_false, not_not]
      cases respEx with
      | ok data => simp [hr]
      | httpError status =>
          by_cases hs : status = 402 <;> simp [hs, hr]
    · simp [get_tide_extremes, if_neg hr, hr]
  refine ⟨hsea hours, hext days, ?_, ?_⟩
  · exact fun hc => (hsea 240).1 hc ⟨by decide, by decide⟩
  · exact fun hc => (hext 10).1 hc ⟨by decide, by decide⟩

/-- C4: `_sine_wave_tide` is a pure function of absolute time: whenever the
`i`-th sample instant of one call coincides with the `j`-th sample instant
of another (`t0 + i` hours `= t0' + j` hours), the heights agree — and the
function takes no `lat` / `lon` input at all, so its output is independent
of location. -/
theorem synthetic_wave_depends_only_on_absolute_time
    (hours hours' : ℤ) (t0 t0' : ℝ) (i j : ℕ)
    (hi : i < hours.toNat) (hj : j < hours'.toNat)
    (ht : t0 + 3600 * (i : ℝ) = t0' + 3600 * (j : ℝ)) :
    (_sine_wave_tide hours t0).sea_level[i]? =
      (_sine_wave_tide hours' t0').sea_level[j]? := by
  simp only [_sine_wave_tide, List.getElem?_map, List.getElem?_range hi,
    List.getElem?_range hj, Option.map_some', ht]

/-- Witness for C4: the sample at index 1 of a call starting at `0` and the
sample at index 0 of a call starting one hour later coincide. -/
theorem synthetic_wave_depends_only_on_absolute_time_witness :
    (1 < (2 : ℤ).toNat ∧ 0 < (1 : ℤ).toNat ∧
      (0 : ℝ) + 3600 * ((1 : ℕ) : ℝ) = 3600 + 3600 * ((0 : ℕ) : ℝ)) ∧
    (_sine_wave_tide 2 0).sea_level[1]? = (_sine_wave_tide 1 3600).sea_level[0]? :=
  ⟨⟨by decide, by decide, by norm_num⟩,
    synthetic_wave_depends_only_on_absolute_time 2 1 0 3600 1 0
      (by decide) (by decide) (by norm_num)⟩

/-- C5: every sample height of `_sine_wave_tide` is
`sin(2 * pi * elapsed / period)` applied to that sample's timestamp
(seconds since the Unix epoch); hence all heights lie in `[-1, 1]`; and any
elapsed time at which the formula attains the maximum height 1 is an odd
multiple of `period / 4`. -/
theorem synthetic_height_sine_of_elapsed (hours : ℤ) (t0 : ℝ) :
    (∀ i : ℕ, (_sine_wave_tide hours t0).sea_level[i]? =
      ((_sine_wave_tide hours t0).time[i]?).map
        (fun t => Real.sin (2 * Real.pi * (t / period)))) ∧
    List.Forall (fun x => -1 ≤ x ∧ x ≤ 1) (_sine_wave_tide hours t0).sea_level ∧
    (∀ s : ℝ, Real.sin (2 * Real.pi * (s / period)) = 1 →
      ∃ m : ℤ, Odd m ∧ s = m * (period / 4)) := by
  refine ⟨?_, ?_, ?_⟩
  · intro i
    simp only [_sine_wave_tide, List.getElem?_map, Option.map_map]
    rfl
  · rw [List.forall_iff_forall_mem]
    intro x hx
    simp only [_sine_wave_tide, List.mem_map, List.mem_range] at hx
    obtain ⟨h, -, rfl⟩ := hx
    exact ⟨Real.neg_one_le_sin _, Real.sin_le_one _⟩
  · intro s hs
    rw [Real.sin_eq_one_iff] at hs
    obtain ⟨k, hk⟩ := hs
    refine ⟨4 * k + 1, ⟨2 * k, by ring⟩, ?_⟩
    have hp : (period : ℝ) ≠ 0 := by norm_num [period]
    have h2pi : (2 * Real.pi) ≠ 0 := by positivity
    have h2 : (1 / 4 + (k : ℝ)) = s / period := by
      apply mul_left_cancel₀ h2pi
      rw [← hk]
      ring
    have h3 : s = (1 / 4 + (k : ℝ)) * period := (div_eq_iff hp).1 h2.symm
    rw [h3]
    push_cast
    ring

/-- Witness for C5: the height-1 clause applied at the concrete elapsed time
`period / 4`, where the sine formula evaluates to 1. -/
theorem synthetic_height_sine_of_elapsed_witness :
    Real.sin (2 * Real.pi * ((period / 4) / period)) = 1 ∧
    ∃ m : ℤ, Odd m ∧ (period / 4 : ℝ) = m * (period / 4) :=
  have h : Real.sin (2 * Real.pi * ((period / 4) / period)) = 1 := by
    have hp : (period : ℝ) ≠ 0 := by norm_num [period]
    have harg : 2 * Real.pi * ((period / 4) / period) = Real.pi / 2 := by
      field_simp
      ring
    rw [harg, Real.sin_pi_div_two]
  ⟨h, (synthetic_height_sine_of_elapsed 1 0).2.2 (period / 4) h⟩

/-- C6: for `hours` in `[1, 240]`, `_sine_wave_tide hours t0` returns
parallel arrays of exactly `hours` entries each, whose timestamps start at
`t0` and are strictly increasing, consecutive ones exactly one hour
(3600 s) apart. -/
theorem synthetic_wave_hourly_grid (hours : ℤ) (t0 : ℝ)
    (h1 : 1 ≤ hours) (h2 : hours ≤ 240) :
    (_sine_wave_tide hours t0).time.length = hours.toNat ∧
    (_sine_wave_tide hours t0).sea_level.length = hours.toNat ∧
    (_sine_wave_tide hours t0).time.head? = some t0 ∧
    List.Chain' (fun a b => a < b ∧ b = a + 3600) (_sine_wave_tide hours t0).time := by
  obtain ⟨n, hn⟩ : ∃ n, hours.toNat = n + 1 :=
    ⟨hours.toNat - 1, by omega⟩
  refine ⟨by simp [_sine_wave_tide], by simp [_sine_wave_tide], ?_, ?_⟩
  · simp [_sine_wave_tide, hn, List.range_succ_eq_map]
  · simp only [_sine_wave_tide, List.chain'_map, hn]
    rw [List.chain'_range_succ]
    intro m _
    constructor
    · push_cast
      linarith
    · push_cast
      ring

/-- Witness for C6 at `hours = 2`, `t0 = 0`. -/
theorem synthetic_wave_hourly_grid_witness :
    ((1 : ℤ) ≤ 2 ∧ (2 : ℤ) ≤ 240) ∧
    ((_sine_wave_tide 2 0).time.length = (2 : ℤ).toNat ∧
      (_sine_wave_tide 2 0).sea_level.length = (2 : ℤ).toNat ∧
      (_sine_wave_tide 2 0).time.head? = some 0 ∧
      List.Chain' (fun a b => a < b ∧ b = a + 3600) (_sine_wave_tide 2 0).time) :=
  ⟨⟨by decide, by decide⟩, synthetic_wave_hourly_grid 2 0 (by decide) (by decide)⟩

/-- Folding an option-emitting step that appends each emitted element is the
same as `filterMap`. -/
theorem foldl_toList_step {β γ : Type} (g : β → Option γ) (l : List β) (acc : List γ) :
    l.foldl (fun a i => a ++ (g i).toList) acc = acc ++ l.filterMap g := by
  induction l generalizing acc with
  | nil => simp
  | cons i l ih =>
      rcases hg : g i with - | e <;>
        simp [List.filterMap_cons, hg, ih, List.append_assoc]

/-- The option-valued emitter of one scan step at interior index `i`. -/
def scanEmit {τ α : Type} [LinearOrder α] (times : List τ) (levels : List α) (i : ℕ) :
    Option (Extreme τ α) :=
  match times[i]?, levels[i - 1]?, levels[i]?, levels[i + 1]? with
  | some t, some prev, some cur, some next =>
      if cur ≥ prev ∧ cur ≥ next then some ⟨t, cur, highTag⟩
      else if cur ≤ prev ∧ cur ≤ next then some ⟨t, cur, lowTag⟩
      else none
  | _, _, _, _ => none

/-- The append-accumulating scan loop equals a `filterMap` of the one-step
emitter over the interior indices. -/
theorem extremesScan_eq_filterMap {τ α : Type} [LinearOrder α]
    (times : List τ) (levels : List α) :
    extremesScan times levels =
      (List.range' 1 (levels.length - 2)).filterMap (scanEmit times levels) := by
  have hbody : (fun (extremes : List (Extreme τ α)) i =>
      match times[i]?, levels[i - 1]?, levels[i]?, levels[i + 1]? with
      | some t, some prev, some cur, some next =>
          if cur ≥ prev ∧ cur ≥ next then extremes ++ [⟨t, cur, highTag⟩]
          else if cur ≤ prev ∧ cur ≤ next then extremes ++ [⟨t, cur, lowTag⟩]
          else extremes
      | _, _, _, _ => extremes) =
      fun a i => a ++ (scanEmit times levels i).toList := by
    funext a i
    unfold scanEmit
    rcases times[i]? with - | t <;>
      rcases levels[i - 1]? with - | prev <;>
      rcases levels[i]? with - | cur <;>
      rcases levels[i + 1]? with - | next <;>
      simp <;> split_ifs <;> simp
  rw [extremesScan, hbody, foldl_toList_step, List.nil_append]

/-- Whatever `scanEmit` emits at index `i` carries the timestamp `times[i]`. -/
theorem scanEmit_time {τ α : Type} [LinearOrder α] (times : List τ) (levels : List α)
    (i : ℕ) (b : Extreme τ α) (hb : scanEmit times levels i = some b) :
    times[i]? = some b.time := by
  unfold scanEmit at hb
  rcases h1 : times[i]? with - | t <;> rw [h1] at hb
  · simp at hb
  rcases h2 : levels[i - 1]? with - | prev <;> rw [h2] at hb
  · simp at hb
  rcases h3 : levels[i]? with - | cur <;> rw [h3] at hb
  · simp at hb
  rcases h4 : levels[i + 1]? with - | next <;> rw [h4] at hb
  · simp at hb
  simp only at hb
  split_ifs at hb
  · injection hb with hb
    rw [← hb]
  · injection hb with hb
    rw [← hb]

/-- The timestamp array of the synthetic wave holds `t0 + 3600 * i` at
index `i`. -/
theorem sine_time_getElem (hours : ℤ) (t0 : ℝ) (i : ℕ) (t : ℝ)
    (h : (_sine_wave_tide hours t0).time[i]? = some t) :
    t = t0 + 3600 * (i : ℝ) := by
  simp only [_sine_wave_tide, List.getElem?_map] at h
  rcases hr : (List.range hours.toNat)[i]? with - | a
  · rw [hr] at h
    simp at h
  · rw [hr] at h
    have ha : a = i := by
      rcases List.getElem?_eq_some_iff.1 hr with ⟨hlt, hget⟩
      simpa using hget.symm
    simp only [Option.map_some', Option.some.injEq] at h
    rw [← h, ha]

/-- The extremum scan of `_find_synthetic_extremes`, written as a
`filterMap` of `scanEmit` over the interior indices of the
`days*24 + 1`-sample wave. -/
theorem find_synthetic_extremes_eq_filterMap (days : ℤ) (t0 : ℝ) :
    _find_synthetic_extremes days t0 =
      (List.range' 1 ((_sine_wave_tide (days * 24 + 1) t0).sea_level.length - 2)).filterMap
        (scanEmit (_sine_wave_tide (days * 24 + 1) t0).time
          (_sine_wave_tide (days * 24 + 1) t0).sea_level) := by
  simp only [_find_synthetic_extremes]
  exact extremesScan_eq_filterMap _ _

/-- C7: `_find_synthetic_extremes` agrees with the spec's description of the
scan — hourly samples over `days*24 + 1` hours, interior indices
`i = 1 .. N-2`, `"high"` when `value[i]` is ≥ both neighbours (so a flat
region is classified `"high"`, the high test being checked first), else
`"low"` when ≤ both — and the emitted events come in chronological (scan)
order. -/
theorem find_synthetic_extremes_matches_spec (days : ℤ) (t0 : ℝ) :
    _find_synthetic_extremes days t0 = spec_find_synthetic_extremes days t0 ∧
    List.Pairwise (fun e e' => e.time < e'.time) (_find_synthetic_extremes days t0) := by
  constructor
  · rw [find_synthetic_extremes_eq_filterMap]
    simp only [spec_find_synthetic_extremes]
    congr 1
    funext i
    unfold scanEmit
    rcases (_sine_wave_tide (days * 24 + 1) t0).time[i]? with - | t <;>
      rcases (_sine_wave_tide (days * 24 + 1) t0).sea_level[i - 1]? with - | prev <;>
      rcases (_sine_wave_tide (days * 24 + 1) t0).sea_level[i]? with - | cur <;>
      rcases (_sine_wave_tide (days * 24 + 1) t0).sea_level[i + 1]? with - | next <;>
      rfl
  · rw [find_synthetic_extremes_eq_filterMap, List.pairwise_filterMap]
    refine List.Pairwise.imp ?_ (List.pairwise_lt_range' 1 _ 1 (by norm_num))
    intro i j hij b hb b' hb'
    have hbt : b.time = t0 + 3600 * (i : ℝ) :=
      sine_time_getElem _ t0 i b.time (scanEmit_time _ _ i b (Option.mem_def.1 hb))
    have hbt' : b'.time = t0 + 3600 * (j : ℝ) :=
      sine_time_getElem _ t0 j b'.time (scanEmit_time _ _ j b' (Option.mem_def.1 hb'))
    rw [hbt, hbt']
    have hcast : (i : ℝ) < (j : ℝ) := by exact_mod_cast hij
    linarith

/-- C8: no synthetic extreme event carries the timestamp of sample 0 (`t0`)
or of the last sample (index `days*24`, at `t0 + 3600 * (days*24)`); and on
any strictly monotonic scanned value sequence the scan loop returns the
empty list. -/
theorem extremes_exclude_boundaries_and_monotone_is_empty :
    (∀ (days : ℤ) (t0 : ℝ),
      List.Forall
        (fun e => e.time ≠ t0 ∧ e.time ≠ t0 + 3600 * (((days * 24 : ℤ)) : ℝ))
        (_find_synthetic_extremes days t0)) ∧
    (∀ (α : Type) [inst : LinearOrder α] (times : List ℝ) (levels : List α),
      (List.Chain' (· < ·) levels ∨ List.Chain' (fun a b => b < a) levels) →
      extremesScan times levels = []) := by
  constructor
  · intro days t0
    rw [List.forall_iff_forall_mem]
    intro e he
    rw [find_synthetic_extremes_eq_filterMap, List.mem_filterMap] at he
    obtain ⟨i, hi, hemit⟩ := he
    have hlen : ((_sine_wave_tide (days * 24 + 1) t0).sea_level).length =
        (days * 24 + 1 : ℤ).toNat := by
      simp [_sine_wave_tide]
    rw [hlen, List.mem_range'_1] at hi
    have htime : e.time = t0 + 3600 * (i : ℝ) :=
      sine_time_getElem _ t0 i e.time (scanEmit_time _ _ i e hemit)
    constructor
    · rw [htime]
      intro hc
      have hi0 : (i : ℝ) = 0 := by linarith
      have : i = 0 := by exact_mod_cast hi0
      omega
    · rw [htime]
      intro hc
      have hir : (i : ℝ) = ((days * 24 : ℤ) : ℝ) := by linarith
      have hiz : (i : ℤ) = days * 24 := by exact_mod_cast hir
      omega
  · intro α inst times levels hmono
    rw [extremesScan_eq_filterMap, List.filterMap_eq_nil_iff]
    intro i hi
    rw [List.mem_range'_1] at hi
    have him : i - 1 < levels.length := by omega
    have hic : i < levels.length := by omega
    have hin : i + 1 < levels.length := by omega
    unfold scanEmit
    rw [List.getElem?_eq_getElem him, List.getElem?_eq_getElem hic,
      List.getElem?_eq_getElem hin]
    rcases times[i]? with - | t
    · rfl
    · simp only
      rcases hmono with hinc | hdec
      · have hab : levels[i - 1] < levels[i] := by
          have := List.chain'_iff_get.1 hinc (i - 1) (by omega)
          simpa [List.get_eq_getElem, show i - 1 + 1 = i from by omega] using this
        have hbc : levels[i] < levels[i + 1] := by
          have := List.chain'_iff_get.1 hinc i (by omega)
          simpa [List.get_eq_getElem] using this
        rw [if_neg fun hcon => absurd hcon.2 (not_le.2 hbc),
          if_neg fun hcon => absurd hcon.1 (not_le.2 hab)]
      · have hab : levels[i] < levels[i - 1] := by
          have := List.chain'_iff_get.1 hdec (i - 1) (by omega)
          simpa [List.get_eq_getElem, show i - 1 + 1 = i from by omega] using this
        have hbc : levels[i + 1] < levels[i] := by
          have := List.chain'_iff_get.1 hdec i (by omega)
          simpa [List.get_eq_getElem] using this
        rw [if_neg fun hcon => absurd hcon.1 (not_le.2 hab),
          if_neg fun hcon => absurd hcon.2 (not_le.2 hbc)]

/-- Witness for C8: on the strictly increasing slice `[0, 1, 2]` the scan
loop returns no events. -/
theorem extremes_monotone_is_empty_witness :
    (List.Chain' (· < ·) ([0, 1, 2] : List ℕ) ∨
      List.Chain' (fun a b => b < a) ([0, 1, 2] : List ℕ)) ∧
    extremesScan ([0, 0, 0] : List ℝ) ([0, 1, 2] : List ℕ) = [] :=
  ⟨Or.inl (by norm_num [List.chain'_cons]),
    extremes_exclude_boundaries_and_monotone_is_empty.2 ℕ
      ([0, 0, 0] : List ℝ) ([0, 1, 2] : List ℕ) (Or.inl (by norm_num [List.chain'_cons]))⟩

/-- Witness for C3, instantiated at out-of-range `hours = 0`, `days = 11`. -/
theorem invalid_argument_exactly_out_of_range_witness :
    (get_tide_sea_level 0 0 0 0 (.ok []) = .error (.invalidArgument hoursMsg) ↔
      ¬((1 : ℤ) ≤ 0 ∧ (0 : ℤ) ≤ 240)) ∧
    (get_tide_extremes 0 0 11 0 (.ok []) = .error (.invalidArgument daysMsg) ↔
      ¬((1 : ℤ) ≤ 11 ∧ (11 : ℤ) ≤ 10)) ∧
    get_tide_sea_level 0 0 240 0 (.ok []) ≠ .error (.invalidArgument hoursMsg) ∧
    get_tide_extremes 0 0 10 0 (.ok []) ≠ .error (.invalidArgument daysMsg) :=
  invalid_argument_exactly_out_of_range 0 0 0 0 11 (.ok []) (.ok [])

/-- C9 counterexample: `hours = 2` with a provider success carrying a single
row — the call succeeds but returns arrays of length 1, not the requested 2,
so the success-path result length is not `hours` regardless of the provider's
row count. -/
theorem sea_level_truncation_shortfall :
    get_tide_sea_level 0 0 2 0 (.ok [⟨0, 5⟩]) =
      .ok { time := [0], sea_level := [5] } ∧
    ([0] : List ℝ).length ≠ (2 : ℤ).toNat := by
  constructor
  · rfl
  · decide

/-- C9 amended: on the success path both arrays have length
`min hours (number of provider rows)`; the length equals the requested
`hours` whenever the provider supplies at least `hours` rows. -/
theorem sea_level_success_length (lat lon now : ℝ) (hours : ℤ)
    (data : List SeaLevelRow) (r : SeaLevelDict)
    (h1 : 1 ≤ hours) (h2 : hours ≤ 240)
    (hr : get_tide_sea_level lat lon hours now (.ok data) = .ok r) :
    r.time.length = min hours.toNat data.length ∧
    r.sea_level.length = min hours.toNat data.length ∧
    (hours.toNat ≤ data.length →
      r.time.length = hours.toNat ∧ r.sea_level.length = hours.toNat) := by
  simp only [get_tide_sea_level, if_pos (And.intro h1 h2)] at hr
  injection hr with hr
  rw [← hr]
  refine ⟨by simp, by simp, fun hge => ⟨?_, ?_⟩⟩ <;>
    simp [Nat.min_eq_left hge]

/-- Witness for the amended C9 at `hours = 2` and three provider rows. -/
theorem sea_level_success_length_witness :
    ((1 : ℤ) ≤ 2 ∧ (2 : ℤ) ≤ 240 ∧
      get_tide_sea_level 0 0 2 0 (.ok [⟨0, 1⟩, ⟨2, 3⟩, ⟨4, 5⟩]) =
        .ok { time := [0, 2], sea_level := [1, 3] }) ∧
    (({ time := [0, 2], sea_level := [1, 3] } : SeaLevelDict).time.length =
        min (2 : ℤ).toNat ([⟨0, 1⟩, ⟨2, 3⟩, ⟨4, 5⟩] : List SeaLevelRow).length ∧
      ({ time := [0, 2], sea_level := [1, 3] } : SeaLevelDict).sea_level.length =
        min (2 : ℤ).toNat ([⟨0, 1⟩, ⟨2, 3⟩, ⟨4, 5⟩] : List SeaLevelRow).length ∧
      ((2 : ℤ).toNat ≤ ([⟨0, 1⟩, ⟨2, 3⟩, ⟨4, 5⟩] : List SeaLevelRow).length →
        ({ time := [0, 2], sea_level := [1, 3] } : SeaLevelDict).time.length =
            (2 : ℤ).toNat ∧
          ({ time := [0, 2], sea_level := [1, 3] } : SeaLevelDict).sea_level.length =
            (2 : ℤ).toNat)) :=
  ⟨⟨by decide, by decide, rfl⟩,
    sea_level_success_length 0 0 0 2 [⟨0, 1⟩, ⟨2, 3⟩, ⟨4, 5⟩]
      { time := [0, 2], sea_level := [1, 3] } (by decide) (by decide) rfl⟩

/-- C10: on the success path of `get_tide_sea_level` the returned `time` and
`sea_level` arrays always have equal length — both are projections of the
same row list cut by the same `[:hours]` slice — so the result is a
well-formed pair of parallel arrays for every provider `data` array. -/
theorem sea_level_parallel_arrays (lat lon now : ℝ) (hours : ℤ)
    (data : List SeaLevelRow) (r : SeaLevelDict)
    (hr : get_tide_sea_level lat lon hours now (.ok data) = .ok r) :
    r.time.length = r.sea_level.length := by
  by_cases hif : 1 ≤ hours ∧ hours ≤ 240
  · simp only [get_tide_sea_level, if_pos hif] at hr
    injection hr with hr
    rw [← hr]
    simp
  · simp only [get_tide_sea_level, if_neg hif] at hr
    cases hr

/-- Witness for C10 at `hours = 2` and one provider row. -/
theorem sea_level_parallel_arrays_witness :
    get_tide_sea_level 0 0 2 0 (.ok [⟨7, 9⟩]) =
      .ok { time := [7], sea_level := [9] } ∧
    ({ time := [7], sea_level := [9] } : SeaLevelDict).time.length =
      ({ time := [7], sea_level := [9] } : SeaLevelDict).sea_level.length :=
  ⟨rfl, sea_level_parallel_arrays 0 0 0 2 [⟨7, 9⟩]
    { time := [7], sea_level := [9] } rfl⟩

end TideTool
